import Mathlib

/-!
Verification development for the trendmine script-generation pipeline
(`src/script-generation/generate_scripts.py`, with the legacy
`src/script-generation/video_idea_generator.py` modelled in its own namespace).

Strings from the Python side are modelled as `List Char` (one entry per code
point, matching Python `str` indexing/length); JSON payloads as the inductive
`Json`; network and environment effects as explicit oracle parameters.
-/

/-- A decoded JSON value, as produced by `json.loads`.  Numbers keep their
source token (no claim in scope inspects numeric values), objects keep their
members in source order (duplicate keys resolved last-wins at lookup,
matching Python dict construction). -/
inductive Json where
  | null
  | bool (b : Bool)
  | num (lit : String)
  | str (s : String)
  | arr (items : List Json)
  | obj (members : List (String × Json))
deriving Repr

/-- JSON whitespace accepted between tokens by `json.loads`. -/
def jsonWs (c : Char) : Bool := c = ' ' || c = '\t' || c = '\n' || c = '\r'

/-- Drop leading JSON whitespace. -/
def wsSkip : List Char → List Char
  | [] => []
  | c :: cs => if jsonWs c then wsSkip cs else c :: cs

/-- Longest leading run of decimal digits, plus the remainder. -/
def digitSpan : List Char → List Char × List Char
  | [] => ([], [])
  | c :: cs =>
    if c.isDigit then
      let p := digitSpan cs
      (c :: p.1, p.2)
    else ([], c :: cs)

/-- Single-character escapes accepted inside JSON strings. -/
def escChar : Char → Option Char
  | '"' => some '"'
  | '\\' => some '\\'
  | '/' => some '/'
  | 'b' => some (Char.ofNat 8)
  | 'f' => some (Char.ofNat 12)
  | 'n' => some '\n'
  | 'r' => some '\r'
  | 't' => some '\t'
  | _ => none

/-- Value of one hexadecimal digit. -/
def hexDigitVal (c : Char) : Option Nat :=
  if '0' ≤ c ∧ c ≤ '9' then some (c.toNat - '0'.toNat)
  else if 'a' ≤ c ∧ c ≤ 'f' then some (c.toNat - 'a'.toNat + 10)
  else if 'A' ≤ c ∧ c ≤ 'F' then some (c.toNat - 'A'.toNat + 10)
  else none

/-- Body of a JSON string after the opening quote: returns the decoded string
and the input remaining after the closing quote.  Raw control characters are
rejected (Python `json.loads` default `strict=True`); surrogate pairs are not
recombined (no claim depends on astral characters). -/
def strBody : Nat → List Char → List Char → Option (String × List Char)
  | 0, _, _ => none
  | _, _, [] => none
  | fuel + 1, acc, c :: rest =>
    if c = '"' then some (String.mk acc.reverse, rest)
    else if c = '\\' then
      match rest with
      | 'u' :: h1 :: h2 :: h3 :: h4 :: r2 =>
        match hexDigitVal h1, hexDigitVal h2, hexDigitVal h3, hexDigitVal h4 with
        | some a, some b, some cc, some d =>
          strBody fuel (Char.ofNat (((a * 16 + b) * 16 + cc) * 16 + d) :: acc) r2
        | _, _, _, _ => none
      | e :: r2 =>
        match escChar e with
        | some ce => strBody fuel (ce :: acc) r2
        | none => none
      | [] => none
    else if c.toNat < 32 then none
    else strBody fuel (c :: acc) rest

/-- Optional fraction part of a JSON number (`.` followed by digits). -/
def fracPart : List Char → Option (List Char × List Char)
  | '.' :: r =>
    match r with
    | c :: r2 =>
      if c.isDigit then
        let p := digitSpan r2
        some ('.' :: c :: p.1, p.2)
      else none
    | [] => none
  | s => some ([], s)

/-- Optional exponent part of a JSON number (`e`/`E`, optional sign, digits). -/
def expPart : List Char → Option (List Char × List Char)
  | [] => some ([], [])
  | c :: r =>
    if c = 'e' ∨ c = 'E' then
      match r with
      | s :: r2 =>
        if s = '+' ∨ s = '-' then
          match r2 with
          | d :: r3 =>
            if d.isDigit then
              let p := digitSpan r3
              some (c :: s :: d :: p.1, p.2)
            else none
          | [] => none
        else if s.isDigit then
          let p := digitSpan r2
          some (c :: s :: p.1, p.2)
        else none
      | [] => none
    else some ([], c :: r)

/-- Lex one JSON number token (leading zeros rejected, per the JSON grammar). -/
def numToken (s : List Char) : Option (List Char × List Char) :=
  let sign : List Char × List Char := match s with
    | '-' :: r => (['-'], r)
    | _ => ([], s)
  match sign.2 with
  | '0' :: r =>
    match fracPart r with
    | some (f, r2) =>
      match expPart r2 with
      | some (e, r3) => some (sign.1 ++ '0' :: (f ++ e), r3)
      | none => none
    | none => none
  | c :: r =>
    if c.isDigit then
      let p := digitSpan r
      match fracPart p.2 with
      | some (f, r2) =>
        match expPart r2 with
        | some (e, r3) => some (sign.1 ++ c :: (p.1 ++ f ++ e), r3)
        | none => none
      | none => none
    else none
  | [] => none

mutual

/-- One JSON value (fuel-structured recursive descent). -/
def jsonVal : Nat → List Char → Option (Json × List Char)
  | 0, _ => none
  | fuel + 1, s =>
    match wsSkip s with
    | [] => none
    | c :: r =>
      if c = '"' then (strBody (r.length + 1) [] r).map (fun p => (Json.str p.1, p.2))
      else if c = '{' then
        match wsSkip r with
        | '}' :: r2 => some (Json.obj [], r2)
        | r2 => (jsonMembers fuel r2).map (fun p => (Json.obj p.1, p.2))
      else if c = '[' then
        match wsSkip r with
        | ']' :: r2 => some (Json.arr [], r2)
        | r2 => (jsonItems fuel r2).map (fun p => (Json.arr p.1, p.2))
      else if c = 't' then
        match r with
        | 'r' :: 'u' :: 'e' :: r2 => some (Json.bool true, r2)
        | _ => none
      else if c = 'f' then
        match r with
        | 'a' :: 'l' :: 's' :: 'e' :: r2 => some (Json.bool false, r2)
        | _ => none
      else if c = 'n' then
        match r with
        | 'u' :: 'l' :: 'l' :: r2 => some (Json.null, r2)
        | _ => none
      else
        match numToken (c :: r) with
        | some (tok, r2) => some (Json.num (String.mk tok), r2)
        | none => none

/-- One-or-more comma-separated `"key": value` members ending at `}`. -/
def jsonMembers : Nat → List Char → Option (List (String × Json) × List Char)
  | 0, _ => none
  | fuel + 1, s =>
    match wsSkip s with
    | '"' :: r =>
      match strBody (r.length + 1) [] r with
      | some (key, r1) =>
        match wsSkip r1 with
        | ':' :: r2 =>
          match jsonVal fuel r2 with
          | some (v, r3) =>
            match wsSkip r3 with
            | ',' :: r4 => (jsonMembers fuel r4).map (fun p => ((key, v) :: p.1, p.2))
            | '}' :: r4 => some ([(key, v)], r4)
            | _ => none
          | none => none
        | _ => none
      | none => none
    | _ => none

/-- One-or-more comma-separated array items ending at `]`. -/
def jsonItems : Nat → List Char → Option (List Json × List Char)
  | 0, _ => none
  | fuel + 1, s =>
    match jsonVal fuel s with
    | some (v, r) =>
      match wsSkip r with
      | ',' :: r2 => (jsonItems fuel r2).map (fun p => (v :: p.1, p.2))
      | ']' :: r2 => some ([v], r2)
      | _ => none
    | none => none

end

/-- Python `json.loads`: a single JSON document, with optional surrounding
whitespace, nothing else. -/
def loads (s : List Char) : Option Json :=
  match jsonVal (2 * s.length + 8) s with
  | some (v, rest) => if wsSkip rest = [] then some v else none
  | none => none

/-- Python `sep in s` (substring containment, `sep` non-empty at all uses). -/
def containsSub (sep : List Char) : List Char → Bool
  | [] => sep.isEmpty
  | c :: rest => sep.isPrefixOf (c :: rest) || containsSub sep rest

/-- Worker for Python `s.split(sep)`: scans left to right, cutting at each
leftmost non-overlapping occurrence of `sep`; `acc` holds the current chunk
reversed. -/
def pySplitAux (sep : List Char) (acc : List Char) : List Char → List (List Char)
  | [] => [acc.reverse]
  | c :: rest =>
    if sep.isPrefixOf (c :: rest) then
      acc.reverse :: pySplitAux sep [] (rest.drop (sep.length - 1))
    else
      pySplitAux sep (c :: acc) rest
termination_by s => s.length
decreasing_by
  · simp only [List.length_drop, List.length_cons]; omega
  · simp only [List.length_cons]; omega

/-- Python `s.split(sep)` for a non-empty separator. -/
def pySplit (sep s : List Char) : List (List Char) := pySplitAux sep [] s

/-- Python list indexing `[0]` on a split result (a split result is never
empty, so the `[]` default is unreachable). -/
def elem0 : List (List Char) → List Char
  | x :: _ => x
  | [] => []

/-- Python list indexing `[1]` on a split result (unreachable default: at the
use sites the separator occurs in the input, so the split has ≥ 2 chunks). -/
def elem1 : List (List Char) → List Char
  | _ :: x :: _ => x
  | _ => []

/-- Python `s.find(ch)`, with `none` for `-1`. -/
def pyFindChar (target : Char) : List Char → Option Nat
  | [] => none
  | c :: rest => if c = target then some 0 else (pyFindChar target rest).map (· + 1)

/-- Python `s.rfind(ch)`, with `none` for `-1`. -/
def pyRfindChar (target : Char) (s : List Char) : Option Nat :=
  (pyFindChar target s.reverse).map (fun i => s.length - 1 - i)

/-- Characters removed by `re.sub(r"[\x00-\x08\x0b-\x0c\x0e-\x1f\x7f]", "", _)`
in `VideoIdeaGenerator._parse_response`. -/
def bannedCtrl (c : Char) : Bool :=
  decide (c.toNat ≤ 8 ∨ c.toNat = 11 ∨ c.toNat = 12 ∨
    (14 ≤ c.toNat ∧ c.toNat ≤ 31) ∨ c.toNat = 127)

/-- `SocialPlatform` of `generate_scripts.py` (three members; the legacy
four-member enumeration lives in namespace `VIG` below). -/
inductive SocialPlatform where
  | tiktok
  | instagram_reels
  | youtube_shorts
deriving Repr, DecidableEq

/-- The `.value` of each enum member. -/
def SocialPlatform.value : SocialPlatform → String
  | .tiktok => "tiktok"
  | .instagram_reels => "instagram_reels"
  | .youtube_shorts => "youtube_shorts"

/-- Python `SocialPlatform(raw)` enum construction: `none` models the
`ValueError` raised for a string that is no member's value. -/
def SocialPlatform.fromValue (raw : String) : Option SocialPlatform :=
  if raw = "tiktok" then some .tiktok
  else if raw = "instagram_reels" then some .instagram_reels
  else if raw = "youtube_shorts" then some .youtube_shorts
  else none

/-- One entry of the `_get_platform_specs` mapping. -/
structure PlatformSpec where
  duration : String
  best_practices : String
deriving Repr, DecidableEq

/-- `VideoIdeaGenerator._get_platform_specs` of `generate_scripts.py`. -/
def get_platform_specs : SocialPlatform → PlatformSpec
  | .tiktok =>
    { duration := "15-60 seconds"
      best_practices := "Start with a strong hook, use trending sounds, add text overlays, keep it fast-paced" }
  | .instagram_reels =>
    { duration := "15-90 seconds"
      best_practices := "Use trending audio, vertical format, eye-catching visuals, engage in first 3 seconds" }
  | .youtube_shorts =>
    { duration := "15-60 seconds"
      best_practices := "Strong opening, clear value, encourage likes and subscribes, use captions" }

/-- The `VideoIdea` dataclass.  Python dataclasses do not enforce the field
annotations, so the fields filled from `idea_data.get(...)` hold whatever JSON
value was stored (or the literal default); only `duration` and `platform` are
always set by the code itself. -/
structure VideoIdea where
  title : Json
  hook : Json
  key_points : Json
  cta : Json
  duration : String
  platform : SocialPlatform
  hashtags : Json
  target_audience : Json
deriving Repr

/-- Python `dict` lookup on decoded JSON members: duplicate keys keep the
last binding. -/
def dictGet (members : List (String × Json)) (key : String) : Option Json :=
  List.lookup key members.reverse

/-- Python `dict.get(key, default)`: the stored value if the key is present
(even a stored `null`), otherwise the default. -/
def dictGetD (members : List (String × Json)) (key : String) (dflt : Json) : Json :=
  (dictGet members key).getD dflt

/-- The `VideoIdea(...)` construction in the `for idea_data in ...` loop of
`_parse_response`: every payload field defaults, `duration` always comes from
the platform specs and `platform` from the argument. -/
def idea_of_entry (members : List (String × Json)) (platform : SocialPlatform) : VideoIdea :=
  { title := dictGetD members "title" (Json.str "")
    hook := dictGetD members "hook" (Json.str "")
    key_points := dictGetD members "key_points" (Json.arr [])
    cta := dictGetD members "cta" (Json.str "")
    duration := (get_platform_specs platform).duration
    platform := platform
    hashtags := dictGetD members "hashtags" (Json.arr [])
    target_audience := dictGetD members "target_audience" (Json.str "") }

/-- How `_parse_response` can fail: `noJson` is the
`ValueError("No valid JSON found in response")` raise, `badJson` the
`ValueError("Failed to parse AI response ...")` raise on `JSONDecodeError`,
and `typeError` models the uncaught `AttributeError`/`TypeError` Python would
raise when a payload that decodes fine has the wrong shape (e.g. a non-object
idea entry hit by `.get`, or a truthy non-list under `"ideas"`). -/
inductive ParseFailure where
  | noJson
  | badJson
  | typeError
deriving Repr, DecidableEq

/-- The idea-building loop of `_parse_response`: one `VideoIdea` per entry in
order; a non-object entry raises (`idea_data.get` on a non-dict). -/
def ideas_of_entries : List Json → SocialPlatform → Except ParseFailure (List VideoIdea)
  | [], _ => .ok []
  | Json.obj members :: rest, platform =>
    (ideas_of_entries rest platform).map (fun l => idea_of_entry members platform :: l)
  | _ :: _, _ => .error .typeError

/-- The code-fence stripping prelude of `_parse_response`:
`response.split("```json")[1].split("```")[0]` when a ```json fence is
present, else the analogous bare-fence split, else the text unchanged. -/
def strip_code_fences (response : List Char) : List Char :=
  if containsSub ("```json".data) response then
    elem0 (pySplit ("```".data) (elem1 (pySplit ("```json".data) response)))
  else if containsSub ("```".data) response then
    elem0 (pySplit ("```".data) (elem1 (pySplit ("```".data) response)))
  else response

/-- Fence stripping, `{`/`}` boundary location, slicing, and control-character
removal: everything `_parse_response` does before `json.loads`. -/
def json_candidate (response : List Char) : Except ParseFailure (List Char) :=
  let stripped := strip_code_fences response
  match pyFindChar '{' stripped, pyRfindChar '}' stripped with
  | some json_start, some rf =>
    .ok (((stripped.drop json_start).take (rf + 1 - json_start)).filter (fun c => !bannedCtrl c))
  | _, _ => .error .noJson

/-- The stage of `_parse_response` after the JSON candidate string is in hand:
decode, read `data.get("ideas", [])`, build the ideas.  The `Json.str`/
`Json.obj` sub-branches mirror Python iterating a non-list truthy value
(an empty string or dict iterates nothing and yields `[]`; a non-empty one
raises on the first element); the trailing catch-alls mirror uncaught
`TypeError`/`AttributeError` and are unreachable from a successful decode of
a `{`-leading candidate. -/
def parse_decoded (json_str : List Char) (platform : SocialPlatform) :
    Except ParseFailure (List VideoIdea) :=
  match loads json_str with
  | none => .error .badJson
  | some (Json.obj data) =>
    match dictGetD data "ideas" (Json.arr []) with
    | Json.arr entries => ideas_of_entries entries platform
    | Json.str s => if s.isEmpty then .ok [] else .error .typeError
    | Json.obj ms => if ms.isEmpty then .ok [] else .error .typeError
    | _ => .error .typeError
  | some _ => .error .typeError

/-- `VideoIdeaGenerator._parse_response` of `generate_scripts.py`. -/
def parse_response (response : List Char) (platform : SocialPlatform) :
    Except ParseFailure (List VideoIdea) :=
  match json_candidate response with
  | .error e => .error e
  | .ok json_str => parse_decoded json_str platform

/-! ### Prompt construction (`_build_prompt`, `generate_ideas`) -/

/-- Python `str.title()` (ASCII): first letter of each letter-run uppercased,
the rest lowercased. -/
def pyTitleAux : Bool → List Char → List Char
  | _, [] => []
  | prevAlpha, c :: rest =>
    (if c.isAlpha then (if prevAlpha then c.toLower else c.toUpper) else c) ::
      pyTitleAux c.isAlpha rest

/-- Python `s.title()`. -/
def pyTitle (s : String) : String := String.mk (pyTitleAux false s.data)

/-- Python `s.replace(old, new)` for single-character arguments. -/
def pyReplaceChar (old new : Char) (s : String) : String :=
  String.mk (s.data.map (fun c => if c = old then new else c))

/-- Python `x or dflt` where `x` is an optional string (`None` and `""` are
falsy). -/
def pyOrStr (x : Option String) (dflt : String) : String :=
  match x with
  | some s => if s = "" then dflt else s
  | none => dflt

/-- The module constant `BASE_SCRIPT_CONTEXT`. -/
def BASE_SCRIPT_CONTEXT : String :=
  "Each video should be designed for exactly 30 seconds duration. " ++
  "Provide 5-10 key points per idea, each being a full sentence of 10-15 words. " ++
  "Make sure those key points form a single flowing story, so each sentence connects logically to the next. " ++
  "Hooks must be extremely catchy, curiosity-driven, and under 12 words."

/-- The fixed trailing instruction block appended last in `_build_prompt`
(the triple-quoted literal after the additional-context section). -/
def prompt_tail : String :=
  "\nIMPORTANT: Generate FULL NARRATION SCRIPTS that will be read word-for-word during the video. \n" ++
  "DO NOT generate outlines or bullet points. Write complete sentences that flow naturally as spoken audio.\n" ++
  "\nFor each idea, provide the following in JSON format:\n\n" ++
  "\x7b\n  \"ideas\": [\n    \x7b\n" ++
  "      \"title\": \"Catchy title for the video\",\n" ++
  "      \"hook\": \"The exact words to say in the first 3 seconds to grab attention (≤12 words)\",\n" ++
  "      \"key_points\": [\"Full sentence 1 to narrate (10-15 words)\", \"...\", \"...\", \"...\", \"...\"],\n" ++
  "      \"cta\": \"The exact call to action to say at the end\",\n" ++
  "      \"hashtags\": [\"#hashtag1\", \"#hashtag2\", \"#hashtag3\"],\n" ++
  "      \"target_audience\": \"Specific target audience description\"\n" ++
  "    \x7d\n  ]\n\x7d\n\n" ++
  "Make the scripts:\n" ++
  "- Written in natural, conversational spoken language\n" ++
  "- Full sentences that can be read aloud exactly as written\n" ++
  "- Engaging and authentic like you\x27re talking to a friend\n" ++
  "- Attention-grabbing hooks that stop the scroll\n" ++
  "- Hooks must be very short (max 12 words) but punchy and curiosity-driving\n" ++
  "- Detailed enough to understand without seeing the video\n" ++
  "- Platform-optimized for short-form video\n" ++
  "- Provide 5-10 key_points for every idea\n" ++
  "- Each key_point must be a complete sentence of 10-15 words, not a fragment\n" ++
  "- Key_points should read like sequential narration, with each sentence advancing the same mini-story\n"

/-- `VideoIdeaGenerator._build_prompt` of `generate_scripts.py`: the user
prompt assembled from its six inputs (and nothing else — the only other data
consulted is the fixed platform-spec mapping and module constants). -/
def build_prompt (topic : String) (platform : SocialPlatform) (num_ideas : Int)
    (target_audience : Option String) (tone : String)
    (additional_context : Option String) : String :=
  let platform_specs := get_platform_specs platform
  "Generate " ++ toString num_ideas ++ " creative video ideas for " ++
    pyTitle (pyReplaceChar '_' ' ' platform.value) ++ ".\n\n" ++
  "TOPIC: " ++ topic ++ "\n\n" ++
  "PLATFORM SPECIFICATIONS:\n" ++
  "- Duration: " ++ platform_specs.duration ++ "\n" ++
  "- Best practices: " ++ platform_specs.best_practices ++ "\n\n" ++
  "TARGET AUDIENCE: " ++ pyOrStr target_audience "General audience interested in the topic" ++
  "\n\n" ++
  "TONE: " ++ tone ++ "\n" ++
  "\nADDITIONAL CONTEXT:\n" ++ BASE_SCRIPT_CONTEXT ++ "\n" ++
  (match additional_context with
   | some ctx => if ctx = "" then "" else "\n" ++ ctx ++ "\n"
   | none => "") ++
  prompt_tail

/-- The fixed system prompt set in `generate_ideas`. -/
def system_prompt_text : String :=
  "You are a creative social media content strategist specializing in viral video content. " ++
  "You understand platform algorithms, trends, and what makes content engaging."

/-- The `(system_prompt, user_prompt)` pair a `generate_ideas` call records in
`last_system_prompt` / `last_user_prompt` and hands to the provider client. -/
def generate_prompt_pair (topic : String) (platform : SocialPlatform) (num_ideas : Int)
    (target_audience : Option String) (tone : String)
    (additional_context : Option String) : String × String :=
  (system_prompt_text,
   build_prompt topic platform num_ideas target_audience tone additional_context)

/-! ### Legacy module `video_idea_generator.py` (namespace `VIG`) -/

namespace VIG

/-- `SocialPlatform` of `video_idea_generator.py`: four members, including
`TWITTER`. -/
inductive SocialPlatform where
  | tiktok
  | instagram_reels
  | youtube_shorts
  | twitter
deriving Repr, DecidableEq

/-- The `.value` of each legacy enum member. -/
def SocialPlatform.value : SocialPlatform → String
  | .tiktok => "tiktok"
  | .instagram_reels => "instagram_reels"
  | .youtube_shorts => "youtube_shorts"
  | .twitter => "twitter"

/-- Python `SocialPlatform(raw)` construction for the legacy enum. -/
def SocialPlatform.fromValue (raw : String) : Option SocialPlatform :=
  if raw = "tiktok" then some .tiktok
  else if raw = "instagram_reels" then some .instagram_reels
  else if raw = "youtube_shorts" then some .youtube_shorts
  else if raw = "twitter" then some .twitter
  else none

/-- `VideoIdeaGenerator._get_platform_specs` of `video_idea_generator.py`
(four entries, including twitter). -/
def get_platform_specs : SocialPlatform → PlatformSpec
  | .tiktok =>
    { duration := "15-60 seconds"
      best_practices := "Start with a strong hook, use trending sounds, add text overlays, keep it fast-paced" }
  | .instagram_reels =>
    { duration := "15-90 seconds"
      best_practices := "Use trending audio, vertical format, eye-catching visuals, engage in first 3 seconds" }
  | .youtube_shorts =>
    { duration := "15-60 seconds"
      best_practices := "Strong opening, clear value, encourage likes and subscribes, use captions" }
  | .twitter =>
    { duration := "15-45 seconds"
      best_practices := "Quick and punchy, clear message, conversation-starting, use relevant hashtags" }

end VIG

/-! ### News grounding (`fetch_news_headlines`, `build_news_context`,
`fetch_article_fulltext`) -/

/-- Python string whitespace stripped by `str.strip()` (ASCII set). -/
def pyWs (c : Char) : Bool :=
  c = ' ' || c = '\t' || c = '\n' || c = '\r' || c = Char.ofNat 11 || c = Char.ofNat 12

/-- Python `s.strip()`. -/
def pyStrip (s : String) : String :=
  String.mk ((s.data.dropWhile pyWs).reverse.dropWhile pyWs).reverse

/-- Python `s.lower()` (ASCII). -/
def pyLower (s : String) : String := String.mk (s.data.map Char.toLower)

/-- A decimal digit other than `0` (a JSON number is Python-falsy iff its
value is zero iff its token has no digit in `1`–`9`). -/
def nonzeroDigit (c : Char) : Bool := '1' ≤ c && c ≤ '9'

/-- Python truthiness of a decoded JSON value. -/
def pyTruthy : Json → Bool
  | .null => false
  | .bool b => b
  | .num lit => lit.data.any nonzeroDigit
  | .str s => !s.isEmpty
  | .arr items => !items.isEmpty
  | .obj members => !members.isEmpty

/-- Python `x or dflt` on a `dict.get` result (`None` when the key is
absent). -/
def orJson (v : Option Json) (dflt : Json) : Json :=
  match v with
  | some j => if pyTruthy j then j else dflt
  | none => dflt

/-- Python `x or y <|> ...` key resolution over optional env/argument strings:
the first truthy (non-`None`, non-empty) value. -/
def firstTruthyStr (x : Option String) : Option String :=
  match x with
  | some s => if s = "" then none else some s
  | none => none

/-- An exception escaping the news/article code: `attrError` models an
`AttributeError` (e.g. `.get`/`.strip` on a value of the wrong type),
`typeError` a `TypeError` (e.g. iterating a non-iterable). -/
inductive PyError where
  | attrError
  | typeError
deriving Repr, DecidableEq

/-- A failed `requests` call (any `requests.RequestException`, including
timeouts and bad HTTP statuses via `raise_for_status`). -/
inductive RequestFailure where
  | exception
deriving Repr, DecidableEq

/-- A value that must be a Python `str` to proceed (`.strip()` target). -/
def asPyStr : Json → Except PyError String
  | .str s => .ok s
  | _ => .error .attrError

/-- One dict appended to `articles` by the loop in `fetch_news_headlines`
(`title`/`description` are the stripped strings the code computes; the other
fields hold the raw stored values). -/
structure NewsArticle where
  title : String
  description : String
  url : Option Json
  source : Option Json
  publishedAt : Option Json
  full_content : Option String
deriving Repr

/-- The body of the `for article in data.get("articles", [])` loop:
`none` when the entry is skipped (`if not title: continue`), the built dict
otherwise; `fetchFull` is the nested `fetch_article_fulltext(article["url"],
jina_api_key)` network call, as an oracle over the stored url value. -/
def read_article (fetchFull : Json → Option String) (a : Json) :
    Except PyError (Option NewsArticle) :=
  match a with
  | Json.obj fields =>
    match asPyStr (orJson (dictGet fields "title") (Json.str "")) with
    | .error e => .error e
    | .ok titleS =>
      let title := pyStrip titleS
      if title = "" then .ok none
      else
        let urlv := dictGet fields "url"
        let full_text : Option String :=
          match urlv with
          | some u => if pyTruthy u then fetchFull u else none
          | none => none
        match asPyStr (orJson (dictGet fields "description")
            (orJson (dictGet fields "content") (Json.str ""))) with
        | .error e => .error e
        | .ok descS =>
          match orJson (dictGet fields "source") (Json.obj []) with
          | Json.obj sfs =>
            .ok (some { title := title
                        description := pyStrip descS
                        url := urlv
                        source := dictGet sfs "name"
                        publishedAt := dictGet fields "publishedAt"
                        full_content := full_text })
          | _ => .error PyError.attrError
  | _ => .error .attrError

/-- The article-collection loop of `fetch_news_headlines`, in source order. -/
def collect_articles (fetchFull : Json → Option String) :
    List Json → Except PyError (List NewsArticle)
  | [] => .ok []
  | a :: rest =>
    match read_article fetchFull a with
    | .error e => .error e
    | .ok r =>
      match collect_articles fetchFull rest with
      | .error e => .error e
      | .ok others =>
        match r with
        | some art => .ok (art :: others)
        | none => .ok others

/-- `fetch_news_headlines` of `generate_scripts.py`.  Environment lookups are
the `env*` parameters; the single outbound `requests.get(...)` +
`raise_for_status()` + `.json()` is the `response` oracle (its `.error` case
is the caught `requests.RequestException`); `_topic`/`_country` only shape
the outbound request and are absorbed by the oracle.  `max_articles` is the
`articles[:max_articles]` truncation bound. -/
def fetch_news_headlines (_topic : String) (max_articles : Nat)
    (_country : Option String) (api_key : Option String)
    (envNewKey envNewsKey : Option String)
    (response : Except RequestFailure Json)
    (fetchFull : Json → Option String) :
    Except PyError (List NewsArticle) :=
  match firstTruthyStr api_key <|> firstTruthyStr envNewKey <|> firstTruthyStr envNewsKey with
  | none => .ok []
  | some _ =>
    match response with
    | .error _ => .ok []
    | .ok data =>
      match data with
      | Json.obj fields =>
        -- `data.get("status") != "ok"` is false exactly for the string "ok"
        match dictGet fields "status" with
        | some (Json.str sv) =>
          if sv = "ok" then
            match dictGetD fields "articles" (Json.arr []) with
            | Json.arr entries =>
              (collect_articles fetchFull entries).map (fun l => l.take max_articles)
            | Json.str s => if s.isEmpty then .ok [] else .error .attrError
            | Json.obj ms => if ms.isEmpty then .ok [] else .error .attrError
            | _ => .error .typeError
          else .ok []
        | _ => .ok []
      | _ => .error .attrError

/-- Python `str(value)` on a stored JSON value, as interpolated by an
f-string (container reprs are not reproduced — no claim renders one). -/
def pyStr : Json → String
  | .null => "None"
  | .bool true => "True"
  | .bool false => "False"
  | .num lit => lit
  | .str s => s
  | .arr _ => "<list>"
  | .obj _ => "<dict>"

/-- The `parts` built for one article (plus the blank separator line) inside
`build_news_context`, with `idx` the 1-based `enumerate` counter. -/
def article_block (idx : Nat) (article : NewsArticle) : List String :=
  let head := toString idx ++ ". " ++ article.title ++
    (match article.source with
     | some j => if pyTruthy j then " — " ++ pyStr j else ""
     | none => "")
  let withSummary := [head] ++
    (if article.description ≠ "" then ["   Summary: " ++ article.description] else [])
  let withUrl := withSummary ++
    (match article.url with
     | some j => if pyTruthy j then ["   URL: " ++ pyStr j] else []
     | none => [])
  let withFull := withUrl ++
    (match article.full_content with
     | some t => if t ≠ "" then ["   FULL ARTICLE:", t] else []
     | none => [])
  withFull ++ [""]

/-- All article blocks, numbering from `idx`. -/
def article_blocks (idx : Nat) : List NewsArticle → List String
  | [] => []
  | a :: rest => article_block idx a ++ article_blocks (idx + 1) rest

/-- `build_news_context` of `generate_scripts.py`. -/
def build_news_context (news_articles : List NewsArticle) : String :=
  if news_articles.isEmpty then ""
  else
    pyStrip (String.intercalate "\n"
      (["Use the following recent news stories as factual inspiration. Keep references to the actual events accurate and concise:",
        ""] ++ article_blocks 1 news_articles))

/-- The module constant `JINA_SCRAPE_BASE`. -/
def JINA_SCRAPE_BASE : String := "https://r.jina.ai/"

/-- A successful `requests.get` in the direct-fetch fallback: the
`content-type` header (defaulted to `""`) and the response text. -/
structure HttpTextResponse where
  content_type : String
  body : String
deriving Repr

/-- `fetch_article_fulltext` of `generate_scripts.py`.  `jinaGet` and
`directGet` are the two `requests.get` calls (error = the caught
`requests.RequestException`); `strip_html_tags` stands for the pure helper
`_strip_html_tags`, whose regex/entity machinery the claims do not depend
on, so it is universally quantified rather than reproduced. -/
def fetch_article_fulltext (url : String) (api_key : Option String)
    (envJinaKey : Option String)
    (jinaGet : String → Except RequestFailure String)
    (directGet : String → Except RequestFailure HttpTextResponse)
    (strip_html_tags : String → String) : Option String :=
  if url = "" then none
  else
    let jina_api_key : Option String :=
      match api_key with
      | some k => some k
      | none => envJinaKey
    let jinaResult : Option String :=
      match jina_api_key with
      | some k =>
        if k = "" then none
        else
          match jinaGet (JINA_SCRAPE_BASE ++ url) with
          | .ok text =>
            let t := pyStrip text
            if t.length > 20 then some t else none
          | .error _ => none
      | none => none
    match jinaResult with
    | some t => some t
    | none =>
      match directGet url with
      | .error _ => none
      | .ok resp =>
        let text :=
          if containsSub "text/html".data (pyLower resp.content_type).data
          then strip_html_tags resp.body
          else pyStrip resp.body
        if text.length > 20 then some text else none

/-! ### Helper lemmas -/

/-- When every entry under `"ideas"` is a JSON object, the idea-building loop
succeeds, preserves length and order, and each output is the
`idea_of_entry` of the corresponding entry. -/
theorem ideas_of_entries_ok (platform : SocialPlatform) :
    ∀ entries : List Json, (∀ e ∈ entries, ∃ ms, e = Json.obj ms) →
    ∃ out, ideas_of_entries entries platform = .ok out
      ∧ out.length = entries.length
      ∧ (∀ idea ∈ out, ∃ ms, idea = idea_of_entry ms platform)
      ∧ ∀ i (hi : i < entries.length) ms, entries.get ⟨i, hi⟩ = Json.obj ms →
          ∃ hi2 : i < out.length, out.get ⟨i, hi2⟩ = idea_of_entry ms platform
  | [], _ => by
    refine ⟨[], rfl, rfl, by simp, ?_⟩
    intro i hi
    exact absurd hi (by simp)
  | e :: rest, h => by
    obtain ⟨ms0, rfl⟩ := h e (List.mem_cons_self e rest)
    obtain ⟨out', hok, hlen, hall, hget⟩ :=
      ideas_of_entries_ok platform rest (fun x hx => h x (List.mem_cons_of_mem _ hx))
    refine ⟨idea_of_entry ms0 platform :: out', ?_, by simp [hlen], ?_, ?_⟩
    · simp [ideas_of_entries, hok, Except.map]
    · intro idea hmem
      rcases List.mem_cons.mp hmem with h1 | h2
      · exact ⟨ms0, h1⟩
      · exact hall idea h2
    · intro i hi ms hms
      cases i with
      | zero =>
        have hms0 : Json.obj ms0 = Json.obj ms := by simpa using hms
        cases hms0
        exact ⟨by simp, by simp⟩
      | succ n =>
        have hn : n < rest.length := by simpa using hi
        obtain ⟨hi2, hout⟩ := hget n hn ms (by simpa using hms)
        exact ⟨by simpa using hi2, by simpa using hout⟩

/-! ### Claims -/

/-- C1: for every raw provider output whose embedded JSON object matches the
expected schema (here: the extracted candidate decodes to an object whose
`ideas` key holds an array of objects), `parse` returns one `Idea` per entry,
in order, with `duration` equal to the platform's configured duration string
and `platform` equal to the `platform` argument, regardless of any duration
or platform value the model supplied. -/
theorem c1_parse_matches_schema (raw : List Char) (platform : SocialPlatform)
    (js : List Char) (fields : List (String × Json)) (entries : List Json)
    (h1 : json_candidate raw = .ok js)
    (h2 : loads js = some (Json.obj fields))
    (h3 : dictGet fields "ideas" = some (Json.arr entries))
    (h4 : ∀ e ∈ entries, ∃ ms, e = Json.obj ms) :
    ∃ out, parse_response raw platform = .ok out
      ∧ out.length = entries.length
      ∧ (∀ idea ∈ out, idea.duration = (get_platform_specs platform).duration
          ∧ idea.platform = platform)
      ∧ ∀ i (hi : i < entries.length) ms, entries.get ⟨i, hi⟩ = Json.obj ms →
          ∃ hi2 : i < out.length, out.get ⟨i, hi2⟩ = idea_of_entry ms platform := by
  obtain ⟨out, hok, hlen, hall, hget⟩ := ideas_of_entries_ok platform entries h4
  refine ⟨out, ?_, hlen, ?_, hget⟩
  · simp [parse_response, h1, parse_decoded, h2, dictGetD, h3, hok]
  · intro idea hmem
    obtain ⟨ms, rfl⟩ := hall idea hmem
    exact ⟨rfl, rfl⟩

/-- Witness for C1 at a concrete provider output whose single idea entry
carries a bogus `duration` and `platform`: one idea comes back, with the
tiktok duration string and platform. -/
theorem c1_parse_matches_schema_witness :
    (∃ out,
        parse_response "\x7b\"ideas\": [\x7b\"title\": \"A\", \"duration\": \"99 h\", \"platform\": \"x\"\x7d]\x7d".data
          SocialPlatform.tiktok = .ok out
        ∧ out.length = [Json.obj [("title", Json.str "A"), ("duration", Json.str "99 h"),
            ("platform", Json.str "x")]].length
        ∧ (∀ idea ∈ out, idea.duration = (get_platform_specs SocialPlatform.tiktok).duration
            ∧ idea.platform = SocialPlatform.tiktok)
        ∧ ∀ i (hi : i < [Json.obj [("title", Json.str "A"), ("duration", Json.str "99 h"),
            ("platform", Json.str "x")]].length) ms,
            [Json.obj [("title", Json.str "A"), ("duration", Json.str "99 h"),
              ("platform", Json.str "x")]].get ⟨i, hi⟩ = Json.obj ms →
            ∃ hi2 : i < out.length,
              out.get ⟨i, hi2⟩ = idea_of_entry ms SocialPlatform.tiktok)
    ∧ (get_platform_specs SocialPlatform.tiktok).duration = "15-60 seconds" := by
  refine ⟨?_, rfl⟩
  refine c1_parse_matches_schema _ SocialPlatform.tiktok
    "\x7b\"ideas\": [\x7b\"title\": \"A\", \"duration\": \"99 h\", \"platform\": \"x\"\x7d]\x7d".data
    [("ideas", Json.arr [Json.obj [("title", Json.str "A"), ("duration", Json.str "99 h"),
      ("platform", Json.str "x")]])]
    [Json.obj [("title", Json.str "A"), ("duration", Json.str "99 h"),
      ("platform", Json.str "x")]]
    (by rfl) (by rfl) (by rfl) ?_
  intro e he
  simp only [List.mem_singleton] at he
  exact ⟨_, he⟩

/-- C2 counterexample: `"{}"` is a syntactically valid JSON object with no
`ideas` key, yet `parse` returns `ok []` — it does not fail with any error. -/
theorem c2_missing_ideas_counterexample :
    loads "\x7b\x7d".data = some (Json.obj [])
    ∧ dictGet ([] : List (String × Json)) "ideas" = none
    ∧ parse_response "\x7b\x7d".data SocialPlatform.tiktok = Except.ok [] := by
  exact ⟨rfl, rfl, rfl⟩

/-- C2 amended: for every raw output whose extracted candidate decodes to a
JSON object without an `ideas` key, `parse` silently returns the empty idea
list (it raises no error at all: `data.get("ideas", [])` defaults). -/
theorem c2_amended_missing_ideas_ok_empty (raw : List Char) (platform : SocialPlatform)
    (js : List Char) (fields : List (String × Json))
    (h1 : json_candidate raw = .ok js)
    (h2 : loads js = some (Json.obj fields))
    (h3 : dictGet fields "ideas" = none) :
    parse_response raw platform = .ok [] := by
  simp [parse_response, h1, parse_decoded, h2, dictGetD, h3, ideas_of_entries]

/-- Witness for C2's amended claim at the concrete output `{"x": 1}`. -/
theorem c2_amended_missing_ideas_ok_empty_witness :
    json_candidate "\x7b\"x\": 1\x7d".data = .ok "\x7b\"x\": 1\x7d".data
    ∧ loads "\x7b\"x\": 1\x7d".data = some (Json.obj [("x", Json.num "1")])
    ∧ dictGet [("x", Json.num "1")] "ideas" = none
    ∧ parse_response "\x7b\"x\": 1\x7d".data SocialPlatform.instagram_reels = .ok [] := by
  refine ⟨rfl, rfl, rfl, ?_⟩
  exact c2_amended_missing_ideas_ok_empty _ _ _ [("x", Json.num "1")] rfl rfl rfl

/-- C3 counterexample: the payload `{"ideas": [{}]}` has an idea entry missing
every required field (title, hook, cta, target_audience, ...), yet the call
succeeds and yields one `Idea` populated with defaults — the batch does not
fail. -/
theorem c3_partial_idea_counterexample :
    parse_response "\x7b\"ideas\": [\x7b\x7d]\x7d".data SocialPlatform.tiktok =
      Except.ok [{ title := Json.str ""
                   hook := Json.str ""
                   key_points := Json.arr []
                   cta := Json.str ""
                   duration := "15-60 seconds"
                   platform := SocialPlatform.tiktok
                   hashtags := Json.arr []
                   target_audience := Json.str "" }] := by
  rfl

/-- C3 amended: a schema-invalid idea entry does not fail the batch — each
object entry yields an `Idea` in which any missing field is filled with its
default (`""` for title/hook/cta/target_audience, `[]` for
key_points/hashtags), and the call still returns one `Idea` per entry. -/
theorem c3_amended_partial_ideas_defaulted (raw : List Char) (platform : SocialPlatform)
    (js : List Char) (fields : List (String × Json)) (entries : List Json)
    (i : Nat) (ms : List (String × Json))
    (h1 : json_candidate raw = .ok js)
    (h2 : loads js = some (Json.obj fields))
    (h3 : dictGet fields "ideas" = some (Json.arr entries))
    (h4 : ∀ e ∈ entries, ∃ m, e = Json.obj m)
    (hi : i < entries.length)
    (he : entries.get ⟨i, hi⟩ = Json.obj ms) :
    ∃ out, parse_response raw platform = .ok out
      ∧ out.length = entries.length
      ∧ ∃ hi2 : i < out.length,
          out.get ⟨i, hi2⟩ = idea_of_entry ms platform
          ∧ (dictGet ms "title" = none → (out.get ⟨i, hi2⟩).title = Json.str "")
          ∧ (dictGet ms "hook" = none → (out.get ⟨i, hi2⟩).hook = Json.str "")
          ∧ (dictGet ms "key_points" = none → (out.get ⟨i, hi2⟩).key_points = Json.arr [])
          ∧ (dictGet ms "cta" = none → (out.get ⟨i, hi2⟩).cta = Json.str "")
          ∧ (dictGet ms "hashtags" = none → (out.get ⟨i, hi2⟩).hashtags = Json.arr [])
          ∧ (dictGet ms "target_audience" = none →
              (out.get ⟨i, hi2⟩).target_audience = Json.str "") := by
  obtain ⟨out, hok, hlen, _, hget⟩ := ideas_of_entries_ok platform entries h4
  obtain ⟨hi2, hout⟩ := hget i hi ms he
  refine ⟨out, ?_, hlen, hi2, hout, ?_, ?_, ?_, ?_, ?_, ?_⟩
  · simp [parse_response, h1, parse_decoded, h2, dictGetD, h3, hok]
  all_goals intro hnone
  all_goals rw [hout]
  all_goals simp [idea_of_entry, dictGetD, hnone]

/-- Witness for C3's amended claim: the entry `{"title": "T"}` yields an Idea
with the given title and every other payload field defaulted. -/
theorem c3_amended_partial_ideas_defaulted_witness :
    ∃ out, parse_response "\x7b\"ideas\": [\x7b\"title\": \"T\"\x7d]\x7d".data
        SocialPlatform.youtube_shorts = .ok out
      ∧ out.length = [Json.obj [("title", Json.str "T")]].length
      ∧ ∃ hi2 : 0 < out.length,
          out.get ⟨0, hi2⟩ = idea_of_entry [("title", Json.str "T")] SocialPlatform.youtube_shorts
          ∧ (dictGet [("title", Json.str "T")] "title" = none →
              (out.get ⟨0, hi2⟩).title = Json.str "")
          ∧ (dictGet [("title", Json.str "T")] "hook" = none →
              (out.get ⟨0, hi2⟩).hook = Json.str "")
          ∧ (dictGet [("title", Json.str "T")] "key_points" = none →
              (out.get ⟨0, hi2⟩).key_points = Json.arr [])
          ∧ (dictGet [("title", Json.str "T")] "cta" = none →
              (out.get ⟨0, hi2⟩).cta = Json.str "")
          ∧ (dictGet [("title", Json.str "T")] "hashtags" = none →
              (out.get ⟨0, hi2⟩).hashtags = Json.arr [])
          ∧ (dictGet [("title", Json.str "T")] "target_audience" = none →
              (out.get ⟨0, hi2⟩).target_audience = Json.str "") := by
  refine c3_amended_partial_ideas_defaulted _ _ "\x7b\"ideas\": [\x7b\"title\": \"T\"\x7d]\x7d".data
    [("ideas", Json.arr [Json.obj [("title", Json.str "T")]])]
    [Json.obj [("title", Json.str "T")]] 0 [("title", Json.str "T")]
    rfl rfl rfl ?_ (by simp) (by simp)
  intro e he
  simp only [List.mem_singleton] at he
  exact ⟨_, he⟩

/-- C8: the prompt builder is a pure function of its six inputs — two
invocations with equal (topic, platform, num_ideas, target_audience, tone,
additional_context) produce byte-identical `(system_prompt, user_prompt)`
pairs.  The embedding of `_build_prompt` reads nothing but these arguments,
the fixed platform-spec mapping, and module constants, so no hidden state or
randomness can influence the output. -/
theorem c8_prompt_pair_deterministic
    (t1 t2 : String) (p1 p2 : SocialPlatform) (n1 n2 : Int)
    (a1 a2 : Option String) (o1 o2 : String) (c1 c2 : Option String)
    (ht : t1 = t2) (hp : p1 = p2) (hn : n1 = n2)
    (ha : a1 = a2) (ho : o1 = o2) (hc : c1 = c2) :
    generate_prompt_pair t1 p1 n1 a1 o1 c1 = generate_prompt_pair t2 p2 n2 a2 o2 c2 := by
  subst ht hp hn ha ho hc
  rfl

/-- Witness for C8 at one concrete input repeated twice. -/
theorem c8_prompt_pair_deterministic_witness :
    generate_prompt_pair "5 productivity hacks" SocialPlatform.tiktok 2 none
        "engaging and authentic" (some "news context")
      = generate_prompt_pair "5 productivity hacks" SocialPlatform.tiktok 2 none
        "engaging and authentic" (some "news context") :=
  c8_prompt_pair_deterministic _ _ _ _ _ _ _ _ _ _ _ _ rfl rfl rfl rfl rfl rfl

/-- C9 counterexample: in the generation pipeline of `generate_scripts.py`,
`"twitter"` is not a valid platform — constructing `SocialPlatform("twitter")`
raises (`none`), so the platform domain is not the claimed four-element set. -/
theorem c9_twitter_not_in_domain_counterexample :
    SocialPlatform.fromValue "twitter" = none := by
  decide

/-- C9 amended: the platform domain of `generate_scripts.py` is exactly
{tiktok, instagram_reels, youtube_shorts} — twitter excluded — with the
platform-spec mapping defined on all three; only the superseded
`video_idea_generator.py` has the four-element domain including twitter
(duration "15-45 seconds"), with specs defined for all four values. -/
theorem c9_amended_platform_domain :
    (SocialPlatform.fromValue "tiktok" = some SocialPlatform.tiktok
      ∧ SocialPlatform.fromValue "instagram_reels" = some SocialPlatform.instagram_reels
      ∧ SocialPlatform.fromValue "youtube_shorts" = some SocialPlatform.youtube_shorts
      ∧ SocialPlatform.fromValue "twitter" = none)
    ∧ (∀ p : SocialPlatform, p = SocialPlatform.tiktok ∨ p = SocialPlatform.instagram_reels
        ∨ p = SocialPlatform.youtube_shorts)
    ∧ (∀ p : SocialPlatform, (get_platform_specs p).duration ≠ "")
    ∧ (VIG.SocialPlatform.fromValue "twitter" = some VIG.SocialPlatform.twitter)
    ∧ (∀ q : VIG.SocialPlatform, (VIG.get_platform_specs q).duration ≠ "")
    ∧ (VIG.get_platform_specs VIG.SocialPlatform.twitter).duration = "15-45 seconds" := by
  refine ⟨⟨by decide, by decide, by decide, by decide⟩, ?_, ?_, by decide, ?_, by decide⟩
  · intro p
    cases p
    · exact Or.inl rfl
    · exact Or.inr (Or.inl rfl)
    · exact Or.inr (Or.inr rfl)
  · intro p
    cases p <;> simp [get_platform_specs]
  · intro q
    cases q <;> simp [VIG.get_platform_specs]

/-- An article dict built by the headline loop never has an empty (stripped)
title: blank-titled entries are skipped before construction. -/
theorem read_article_title_ne (fetchFull : Json → Option String) (a : Json)
    (art : NewsArticle) (h : read_article fetchFull a = .ok (some art)) :
    art.title ≠ "" := by
  cases a <;> simp only [read_article] at h
  case obj fields =>
    repeat' split at h
    all_goals try (cases h)
    all_goals simp_all
  all_goals simp_all

/-- Every article in a successful collection pass has a non-empty title. -/
theorem collect_articles_titles_ne (fetchFull : Json → Option String) :
    ∀ (entries : List Json) (l : List NewsArticle),
      collect_articles fetchFull entries = .ok l → ∀ art ∈ l, art.title ≠ ""
  | [], l, h => by
    simp only [collect_articles] at h
    cases h
    simp
  | a :: rest, l, h => by
    intro art hmem
    simp only [collect_articles] at h
    cases hra : read_article fetchFull a with
    | error e => rw [hra] at h; exact absurd h (by simp)
    | ok r =>
      rw [hra] at h
      cases hcr : collect_articles fetchFull rest with
      | error e => rw [hcr] at h; exact absurd h (by simp)
      | ok others =>
        rw [hcr] at h
        cases r with
        | none =>
          injection h with h2
          subst h2
          exact collect_articles_titles_ne fetchFull rest others hcr art hmem
        | some art0 =>
          injection h with h2
          subst h2
          rcases List.mem_cons.mp hmem with h1 | h3
          · subst h1; exact read_article_title_ne fetchFull a art hra
          · exact collect_articles_titles_ne fetchFull rest others hcr art h3

/-- The truncation branch of `fetch_news_headlines`: slicing the collected
list to `max_articles` bounds its length, and the titles stay non-empty. -/
theorem headlines_take_branch (fetchFull : Json → Option String) (entries : List Json)
    (max_articles : Nat) (l : List NewsArticle)
    (h : Except.map (fun xs => List.take max_articles xs)
          (collect_articles fetchFull entries) = .ok l) :
    l.length ≤ max_articles ∧ ∀ art ∈ l, art.title ≠ "" := by
  cases hcol : collect_articles fetchFull entries with
  | error e => rw [hcol] at h; exact absurd h (by simp [Except.map])
  | ok full =>
    rw [hcol] at h
    simp only [Except.map, Except.ok.injEq] at h
    subst h
    constructor
    · simp [List.length_take_le]
    · intro art hmem
      exact collect_articles_titles_ne fetchFull entries full hcol art
        (List.mem_of_mem_take hmem)

/-- C7: a successful `fetch_news_headlines` returns at most `max_articles`
articles, and every returned article has a non-empty title (entries whose
title is absent or blank after stripping are dropped). -/
theorem c7_headlines_truncated_and_titled (_topic : String) (max_articles : Nat)
    (_country api_key k1 k2 : Option String)
    (response : Except RequestFailure Json) (fetchFull : Json → Option String)
    (l : List NewsArticle)
    (h : fetch_news_headlines _topic max_articles _country api_key k1 k2 response fetchFull
          = .ok l) :
    l.length ≤ max_articles ∧ ∀ art ∈ l, art.title ≠ "" := by
  unfold fetch_news_headlines at h
  repeat' split at h
  all_goals first
  | (cases h; exact ⟨by simp, by simp⟩)
  | (exact absurd h (by simp))
  | (exact headlines_take_branch _ _ _ _ h)

/-- C6: news grounding degrades silently to an empty result in all three
failure cases — no credential resolves, the request fails transport-level,
or the service signals a non-"ok" status — and the empty article list renders
as the empty context string, so generation proceeds without grounding. -/
theorem c6_grounding_silently_degrades (_topic : String) (max_articles : Nat)
    (_country api_key k1 k2 : Option String)
    (response : Except RequestFailure Json) (fetchFull : Json → Option String)
    (h : (firstTruthyStr api_key <|> firstTruthyStr k1 <|> firstTruthyStr k2) = none
       ∨ response = .error RequestFailure.exception
       ∨ (∃ fields, response = .ok (Json.obj fields)
           ∧ ∀ sv, dictGet fields "status" = some sv → sv ≠ Json.str "ok")) :
    fetch_news_headlines _topic max_articles _country api_key k1 k2 response fetchFull = .ok []
    ∧ build_news_context [] = "" := by
  refine ⟨?_, rfl⟩
  rcases h with hk | hr | ⟨fields, hresp, hstat⟩
  · simp [fetch_news_headlines, hk]
  · rcases hkey : (firstTruthyStr api_key <|> firstTruthyStr k1 <|> firstTruthyStr k2)
      with _ | v
    · simp [fetch_news_headlines, hkey]
    · simp [fetch_news_headlines, hkey, hr]
  · rcases hkey : (firstTruthyStr api_key <|> firstTruthyStr k1 <|> firstTruthyStr k2)
      with _ | v
    · simp [fetch_news_headlines, hkey]
    · rcases hs : dictGet fields "status" with _ | sv
      · simp [fetch_news_headlines, hkey, hresp, hs]
      · have hne := hstat sv hs
        cases sv
        case str sstr =>
          have hsneq : sstr ≠ "ok" := fun hcon => hne (by rw [hcon])
          simp [fetch_news_headlines, hkey, hresp, hs, hsneq]
        all_goals simp [fetch_news_headlines, hkey, hresp, hs]

/-- Witness for C6 in the transport-failure case (with a credential set and
the other oracles fixed concretely). -/
theorem c6_grounding_silently_degrades_witness :
    fetch_news_headlines "ai" 5 none (some "key") none none
        (.error RequestFailure.exception) (fun _ => none) = .ok []
    ∧ build_news_context [] = "" :=
  c6_grounding_silently_degrades "ai" 5 none (some "key") none none
    (.error RequestFailure.exception) (fun _ => none)
    (Or.inr (Or.inl rfl))

/-- C7 witness: a concrete response holding four articles (one blank-titled)
with `max_articles = 2`: both the bound and the non-empty-title property
follow from the theorem at this input. -/
theorem c7_headlines_truncated_and_titled_witness :
    ([{ title := "First", description := "", url := none, source := none,
        publishedAt := none, full_content := none },
      { title := "Second", description := "", url := none, source := none,
        publishedAt := none, full_content := none }] : List NewsArticle).length ≤ 2
    ∧ ∀ art,
        art ∈ ([{ title := "First", description := "", url := none, source := none,
                  publishedAt := none, full_content := none },
                { title := "Second", description := "", url := none, source := none,
                  publishedAt := none, full_content := none }] : List NewsArticle) →
        art.title ≠ "" :=
  c7_headlines_truncated_and_titled "t" 2 none (some "k") none none
    (.ok (Json.obj [("status", Json.str "ok"),
      ("articles", Json.arr
        [Json.obj [("title", Json.str "  ")],
         Json.obj [("title", Json.str " First ")],
         Json.obj [("title", Json.str "Second")],
         Json.obj [("title", Json.str "Third")]])]))
    (fun _ => none) _ rfl

/-- C10: `fetch_article_fulltext` returns either `none` or a string strictly
longer than 20 characters — short bodies from the primary extraction service
or the direct-fetch fallback are treated as absent — for every url, key
configuration, network behaviour, and HTML-stripping behaviour. -/
theorem c10_fulltext_none_or_long (url : String) (api_key envJinaKey : Option String)
    (jinaGet : String → Except RequestFailure String)
    (directGet : String → Except RequestFailure HttpTextResponse)
    (strip_html_tags : String → String) (s : String)
    (h : fetch_article_fulltext url api_key envJinaKey jinaGet directGet strip_html_tags
          = some s) :
    s.length > 20 := by
  simp only [fetch_article_fulltext] at h
  repeat' split at h
  all_goals try (rename_i heq; repeat' split at heq)
  all_goals simp_all

/-- Witness for C10: with the primary service failing and the fallback
serving a long plain-text body, the returned string has more than 20
characters. -/
theorem c10_fulltext_none_or_long_witness :
    fetch_article_fulltext "http://example.com/a" none (some "jk")
        (fun _ => .error RequestFailure.exception)
        (fun _ => .ok { content_type := "text/plain", body := "a body of thirty characters!!." })
        (fun b => b)
      = some "a body of thirty characters!!."
    ∧ ("a body of thirty characters!!." : String).length > 20 := by
  refine ⟨rfl, ?_⟩
  exact c10_fulltext_none_or_long "http://example.com/a" none (some "jk")
    (fun _ => .error RequestFailure.exception)
    (fun _ => .ok { content_type := "text/plain", body := "a body of thirty characters!!." })
    (fun b => b) _ rfl

/-- Every character of every chunk produced by the split worker comes from
the accumulator or the input. -/
theorem pySplitAux_chars (sep : List Char) : ∀ (s acc chunk : List Char),
    chunk ∈ pySplitAux sep acc s → ∀ c ∈ chunk, c ∈ acc ∨ c ∈ s
  | [], acc, chunk, hc, c, hcc => by
    simp only [pySplitAux, List.mem_singleton] at hc
    subst hc
    exact Or.inl (by simpa using hcc)
  | b :: rest, acc, chunk, hc, c, hcc => by
    simp only [pySplitAux] at hc
    split at hc
    · rcases List.mem_cons.mp hc with h1 | h2
      · subst h1; exact Or.inl (by simpa using hcc)
      · rcases pySplitAux_chars sep (rest.drop (sep.length - 1)) [] chunk h2 c hcc with h | h
        · simp at h
        · exact Or.inr (List.mem_cons_of_mem _ (List.mem_of_mem_drop h))
    · rcases pySplitAux_chars sep rest (b :: acc) chunk hc c hcc with h | h
      · rcases List.mem_cons.mp h with h1 | h2
        · subst h1; exact Or.inr (List.mem_cons_self _ _)
        · exact Or.inl h2
      · exact Or.inr (List.mem_cons_of_mem _ h)
termination_by s => s.length
decreasing_by
  all_goals simp only [List.length_drop, List.length_cons]
  all_goals omega

/-- A chunk of `pySplit sep s` only holds characters of `s`. -/
theorem pySplit_chunk_chars (sep s chunk : List Char) (hc : chunk ∈ pySplit sep s) :
    ∀ c ∈ chunk, c ∈ s :=
  fun c hcc => (pySplitAux_chars sep s [] chunk hc c hcc).resolve_left (by simp)

/-- `elem0` returns a member of the list, or the empty default. -/
theorem elem0_cases (l : List (List Char)) : elem0 l ∈ l ∨ elem0 l = [] := by
  match l with
  | [] => simp [elem0]
  | a :: t => simp [elem0]

/-- `elem1` returns a member of the list, or the empty default. -/
theorem elem1_cases (l : List (List Char)) : elem1 l ∈ l ∨ elem1 l = [] := by
  match l with
  | [] => simp [elem1]
  | [a] => simp [elem1]
  | a :: b :: t => simp [elem1]

/-- Characters surviving `split(...)[0]` come from the split input. -/
theorem mem_of_mem_elem0_pySplit (sep s : List Char) (c : Char)
    (h : c ∈ elem0 (pySplit sep s)) : c ∈ s := by
  rcases elem0_cases (pySplit sep s) with hm | he
  · exact pySplit_chunk_chars sep s _ hm c h
  · rw [he] at h; simp at h

/-- Characters surviving `split(...)[1]` come from the split input. -/
theorem mem_of_mem_elem1_pySplit (sep s : List Char) (c : Char)
    (h : c ∈ elem1 (pySplit sep s)) : c ∈ s := by
  rcases elem1_cases (pySplit sep s) with hm | he
  · exact pySplit_chunk_chars sep s _ hm c h
  · rw [he] at h; simp at h

/-- Fence stripping introduces no character that was not in the raw text. -/
theorem strip_code_fences_chars (r : List Char) : ∀ c ∈ strip_code_fences r, c ∈ r := by
  intro c hc
  unfold strip_code_fences at hc
  split at hc
  · exact mem_of_mem_elem1_pySplit _ _ c (mem_of_mem_elem0_pySplit _ _ c hc)
  · split at hc
    · exact mem_of_mem_elem1_pySplit _ _ c (mem_of_mem_elem0_pySplit _ _ c hc)
    · exact hc

/-- `s.find(ch)` is `-1` when `ch` does not occur. -/
theorem pyFindChar_eq_none_of_not_mem (t : Char) (s : List Char) (h : t ∉ s) :
    pyFindChar t s = none := by
  induction s with
  | nil => rfl
  | cons c rest ih =>
    have h1 : ¬ c = t := fun hh => h (by simp [hh])
    have h2 : t ∉ rest := fun hh => h (List.mem_cons_of_mem _ hh)
    simp [pyFindChar, h1, ih h2]

/-- C4: any raw output containing no `{` character or no `}` character makes
`parse` fail with the "no valid JSON found" error rather than return a
value. -/
theorem c4_no_brace_pair_is_parse_error (raw : List Char) (platform : SocialPlatform)
    (h : '{' ∉ raw ∨ '}' ∉ raw) :
    parse_response raw platform = .error ParseFailure.noJson := by
  have hsub := strip_code_fences_chars raw
  rcases h with h | h
  · have hnm : '{' ∉ strip_code_fences raw := fun hm => h (hsub _ hm)
    have hf : pyFindChar '{' (strip_code_fences raw) = none :=
      pyFindChar_eq_none_of_not_mem _ _ hnm
    simp [parse_response, json_candidate, hf]
  · have hnm : '}' ∉ strip_code_fences raw := fun hm => h (hsub _ hm)
    have hrev : '}' ∉ (strip_code_fences raw).reverse := by simpa using hnm
    have hr : pyRfindChar '}' (strip_code_fences raw) = none := by
      simp [pyRfindChar, pyFindChar_eq_none_of_not_mem _ _ hrev]
    cases hf : pyFindChar '{' (strip_code_fences raw) with
    | none => simp [parse_response, json_candidate, hf]
    | some i => simp [parse_response, json_candidate, hf, hr]

/-- Witness for C4 at a concrete brace-free output. -/
theorem c4_no_brace_pair_is_parse_error_witness :
    ('{' ∉ "Sorry, I cannot help with that.".data ∨ '}' ∉ "Sorry, I cannot help with that.".data)
    ∧ parse_response "Sorry, I cannot help with that.".data SocialPlatform.tiktok
        = .error ParseFailure.noJson :=
  ⟨Or.inl (by decide),
   c4_no_brace_pair_is_parse_error _ SocialPlatform.tiktok (Or.inl (by decide))⟩

/-! ### Fence-extraction lemmas for C5 -/

/-- The segment of `s` before the first occurrence of `sep` (all of `s` when
`sep` does not occur): the first chunk Python's `split` produces. -/
def takeUntilSep (sep : List Char) : List Char → List Char
  | [] => []
  | c :: rest => if sep.isPrefixOf (c :: rest) then [] else c :: takeUntilSep sep rest

/-- `isPrefixOf` in explicit remainder form. -/
theorem isPrefixOf_eq_true_iff : ∀ (a b : List Char), a.isPrefixOf b = true ↔ ∃ t, a ++ t = b
  | [], b => by simp [List.isPrefixOf]
  | a :: as, [] => by simp [List.isPrefixOf]
  | a :: as, b :: bs => by
    simp only [List.isPrefixOf, Bool.and_eq_true, beq_iff_eq]
    constructor
    · rintro ⟨rfl, h⟩
      obtain ⟨t, rfl⟩ := (isPrefixOf_eq_true_iff as bs).mp h
      exact ⟨t, rfl⟩
    · rintro ⟨t, ht⟩
      injection ht with h1 h2
      subst h1
      exact ⟨rfl, (isPrefixOf_eq_true_iff as bs).mpr ⟨t, h2⟩⟩

/-- A list is a prefix of itself extended. -/
theorem isPrefixOf_append_self (a t : List Char) : a.isPrefixOf (a ++ t) = true :=
  (isPrefixOf_eq_true_iff a (a ++ t)).mpr ⟨t, rfl⟩

/-- A prefix at offset `i` survives extending the carrier on the right. -/
theorem isPrefixOf_drop_of_ext (sep x : List Char) (ext : List Char) (i : Nat)
    (h : sep.isPrefixOf (x.drop i) = true) : sep.isPrefixOf ((x ++ ext).drop i) = true := by
  obtain ⟨t, ht⟩ := (isPrefixOf_eq_true_iff _ _).mp h
  refine (isPrefixOf_eq_true_iff _ _).mpr ⟨t ++ ext.drop (i - x.length), ?_⟩
  rw [List.drop_append_eq_append_drop, ← ht, List.append_assoc]

/-- A `​```json` occurrence is in particular a `​```` occurrence. -/
theorem tick_isPrefixOf_of_json (x : List Char)
    (h : ("```json".data).isPrefixOf x = true) : ("```".data).isPrefixOf x = true := by
  obtain ⟨t, ht⟩ := (isPrefixOf_eq_true_iff _ _).mp h
  refine (isPrefixOf_eq_true_iff _ _).mpr ⟨"json".data ++ t, ?_⟩
  rw [← List.append_assoc]
  exact ht

/-- An occurrence of `sep` at any offset makes Python's `in` true. -/
theorem containsSub_of_drop (sep s : List Char) (i : Nat)
    (h : sep.isPrefixOf (s.drop i) = true) : containsSub sep s = true := by
  induction s generalizing i with
  | nil =>
    simp only [List.drop_nil] at h
    rcases (isPrefixOf_eq_true_iff _ _).mp h with ⟨t, ht⟩
    rcases List.append_eq_nil.mp ht with ⟨rfl, rfl⟩
    rfl
  | cons c rest ih =>
    cases i with
    | zero => simp only [List.drop_zero] at h; simp [containsSub, h]
    | succ n =>
      simp only [List.drop_succ_cons] at h
      simp [containsSub, ih n h]

/-- Python's `in` certifies an occurrence offset. -/
theorem exists_drop_of_containsSub (sep : List Char) : ∀ s : List Char,
    containsSub sep s = true → ∃ i, sep.isPrefixOf (s.drop i) = true := by
  intro s
  induction s with
  | nil =>
    intro h
    refine ⟨0, ?_⟩
    have : sep = [] := by
      cases sep with
      | nil => rfl
      | cons a as => simp [containsSub] at h
    subst this
    rfl
  | cons c rest ih =>
    intro h
    simp only [containsSub, Bool.or_eq_true] at h
    rcases h with h | h
    · exact ⟨0, by simpa using h⟩
    · obtain ⟨i, hi⟩ := ih h
      exact ⟨i + 1, by simpa using hi⟩

/-- A split result is never the empty list of chunks. -/
theorem pySplitAux_ne_nil (sep : List Char) : ∀ (s acc : List Char),
    pySplitAux sep acc s ≠ []
  | [], acc => by simp [pySplitAux]
  | b :: rest, acc => by
    simp only [pySplitAux]
    split
    · simp
    · exact pySplitAux_ne_nil sep rest (b :: acc)
termination_by s => s.length
decreasing_by
  all_goals simp only [List.length_drop, List.length_cons]
  all_goals omega

/-- Indexing `[1]` after a cons is indexing `[0]` in the tail. -/
theorem elem1_cons_of_ne (a : List Char) (l : List (List Char)) (h : l ≠ []) :
    elem1 (a :: l) = elem0 l := by
  cases l with
  | nil => exact absurd rfl h
  | cons x t => rfl

/-- Splitting `pre ++ sep ++ rest` when no occurrence of `sep` begins inside
`pre`: the first chunk is exactly `pre` (with the pending accumulator), and
splitting continues on `rest`. -/
theorem pySplitAux_append (sep : List Char) (hsep : sep ≠ []) (rest : List Char) :
    ∀ (pre acc : List Char),
      (∀ i, i < pre.length → ¬ sep.isPrefixOf ((pre ++ (sep ++ rest)).drop i) = true) →
      pySplitAux sep acc (pre ++ (sep ++ rest)) = (acc.reverse ++ pre) :: pySplit sep rest := by
  intro pre
  induction pre with
  | nil =>
    intro acc _
    obtain ⟨c0, sep', rfl⟩ : ∃ c0 sep', sep = c0 :: sep' := by
      cases sep with
      | nil => exact absurd rfl hsep
      | cons c0 sep' => exact ⟨c0, sep', rfl⟩
    simp only [List.nil_append, List.cons_append, pySplitAux]
    rw [if_pos]
    · have hdrop : (sep' ++ rest).drop ((c0 :: sep').length - 1) = rest := by
        simp only [List.length_cons, Nat.add_sub_cancel]
        exact List.drop_left sep' rest
      rw [hdrop]
      simp [pySplit]
    · exact isPrefixOf_append_self (c0 :: sep') rest
  | cons b pre' ih =>
    intro acc h
    have h0 : ¬ (sep.isPrefixOf (b :: (pre' ++ (sep ++ rest))) = true) := by
      have := h 0 (by simp)
      simpa using this
    simp only [List.cons_append, pySplitAux]
    rw [if_neg h0]
    have hshift : ∀ i, i < pre'.length →
        ¬ sep.isPrefixOf ((pre' ++ (sep ++ rest)).drop i) = true := by
      intro i hi
      have := h (i + 1) (by simpa using Nat.succ_lt_succ hi)
      simpa using this
    rw [ih (b :: acc) hshift]
    simp

/-- The head chunk the split worker produces is the segment before the first
occurrence of the separator. -/
theorem elem0_pySplitAux (sep : List Char) : ∀ (s acc : List Char),
    elem0 (pySplitAux sep acc s) = acc.reverse ++ takeUntilSep sep s
  | [], acc => by simp [pySplitAux, takeUntilSep, elem0]
  | b :: rest, acc => by
    by_cases hp : sep.isPrefixOf (b :: rest) = true
    · simp [pySplitAux, takeUntilSep, hp, elem0]
    · simp [pySplitAux, takeUntilSep, hp]
      rw [elem0_pySplitAux sep rest (b :: acc)]
      simp
termination_by s => s.length
decreasing_by
  all_goals simp only [List.length_drop, List.length_cons]
  all_goals omega

/-- `split(sep)[0]` is the segment before the first occurrence of `sep`. -/
theorem elem0_pySplit (sep s : List Char) :
    elem0 (pySplit sep s) = takeUntilSep sep s := by
  simpa using elem0_pySplitAux sep s []

/-- `takeUntilSep` distributes over an occurrence-free leading segment. -/
theorem takeUntilSep_append (sep : List Char) : ∀ (a r : List Char),
    (∀ i, i < a.length → ¬ sep.isPrefixOf ((a ++ r).drop i) = true) →
    takeUntilSep sep (a ++ r) = a ++ takeUntilSep sep r
  | [], r, _ => by simp
  | b :: a', r, h => by
    have h0 : ¬ (sep.isPrefixOf (b :: (a' ++ r)) = true) := by
      have := h 0 (by simp)
      simpa using this
    simp only [List.cons_append, takeUntilSep, List.append_eq]
    rw [if_neg h0]
    have hshift : ∀ i, i < a'.length → ¬ sep.isPrefixOf ((a' ++ r).drop i) = true := by
      intro i hi
      have := h (i + 1) (by simpa using Nat.succ_lt_succ hi)
      simpa using this
    rw [takeUntilSep_append sep a' r hshift]

/-- Cutting at an occurrence that is right at the start yields nothing. -/
theorem takeUntilSep_eq_nil (sep s : List Char) (h : sep.isPrefixOf s = true) :
    takeUntilSep sep s = [] := by
  cases s with
  | nil => rfl
  | cons b rest => simp [takeUntilSep, h]

/-- `takeUntilSep` is an initial segment of its input. -/
theorem takeUntilSep_extends (sep : List Char) : ∀ s : List Char,
    ∃ ext, takeUntilSep sep s ++ ext = s
  | [] => ⟨[], rfl⟩
  | b :: rest => by
    by_cases hp : sep.isPrefixOf (b :: rest) = true
    · exact ⟨b :: rest, by simp [takeUntilSep, hp]⟩
    · obtain ⟨ext, hext⟩ := takeUntilSep_extends sep rest
      exact ⟨ext, by simp [takeUntilSep, hp, hext]⟩

/-- Cutting at the first occurrence is the identity on occurrence-free
input. -/
theorem takeUntilSep_eq_self (sep : List Char) : ∀ mid : List Char,
    (∀ i, i < mid.length → ¬ sep.isPrefixOf (mid.drop i) = true) →
    takeUntilSep sep mid = mid
  | [], _ => rfl
  | b :: rest, h => by
    have h0 := h 0 (by simp)
    simp only [List.drop_zero] at h0
    simp only [takeUntilSep]
    rw [if_neg h0]
    rw [takeUntilSep_eq_self sep rest (fun i hi => by
      have := h (i + 1) (by simpa using Nat.succ_lt_succ hi)
      simpa using this)]

/-- Fence stripping is the identity on text with no triple-backtick
occurrence. -/
theorem strip_code_fences_eq_self (mid : List Char)
    (h : ∀ i, i < mid.length → ¬ ("```".data).isPrefixOf (mid.drop i) = true) :
    strip_code_fences mid = mid := by
  have htick : containsSub ("```".data) mid = false := by
    by_contra hcc
    rw [Bool.not_eq_false] at hcc
    obtain ⟨i, hi⟩ := exists_drop_of_containsSub _ mid hcc
    by_cases hlt : i < mid.length
    · exact h i hlt hi
    · rw [List.drop_eq_nil_of_le (by omega)] at hi
      exact absurd hi (by decide)
  have hjson : containsSub ("```json".data) mid = false := by
    by_contra hcc
    rw [Bool.not_eq_false] at hcc
    obtain ⟨i, hi⟩ := exists_drop_of_containsSub _ mid hcc
    have hti := tick_isPrefixOf_of_json _ hi
    by_cases hlt : i < mid.length
    · exact h i hlt hti
    · rw [List.drop_eq_nil_of_le (by omega)] at hti
      exact absurd hti (by decide)
  unfold strip_code_fences
  rw [if_neg (by simp [hjson]), if_neg (by simp [htick])]

/-- Identical fence-stripping results give identical parses. -/
theorem parse_response_congr_of_strip (r mid : List Char) (platform : SocialPlatform)
    (h1 : strip_code_fences r = mid) (h2 : strip_code_fences mid = mid) :
    parse_response r platform = parse_response mid platform := by
  simp only [parse_response, json_candidate, h1, h2]

/-- The ```json branch of the fence stripper extracts exactly the fenced
content `mid`, for any prose `pre` before the fence and `post` after it
(neither `pre` nor `mid` holding a fence, `post` not starting mid-fence). -/
theorem strip_code_fences_json_case (pre mid post : List Char)
    (hpre : ∀ i, i < pre.length → ¬ ("```".data).isPrefixOf
        ((pre ++ "```json".data ++ mid ++ "```".data ++ post).drop i) = true)
    (hmid : ∀ i, i < mid.length → ¬ ("```".data).isPrefixOf
        ((mid ++ "```".data ++ post).drop i) = true)
    (hpost : post.head? ≠ some '`') :
    strip_code_fences (pre ++ "```json".data ++ mid ++ "```".data ++ post) = mid := by
  simp only [List.append_assoc] at hpre hmid ⊢
  have hcon : containsSub ("```json".data)
      (pre ++ ("```json".data ++ (mid ++ ("```".data ++ post)))) = true := by
    refine containsSub_of_drop _ _ pre.length ?_
    rw [List.drop_left pre ("```json".data ++ (mid ++ ("```".data ++ post)))]
    exact isPrefixOf_append_self _ _
  have hjsonpre : ∀ i, i < pre.length → ¬ ("```json".data).isPrefixOf
      ((pre ++ ("```json".data ++ (mid ++ ("```".data ++ post)))).drop i) = true :=
    fun i hi hj => hpre i hi (tick_isPrefixOf_of_json _ hj)
  have hsplit := pySplitAux_append ("```json".data) (by decide)
    (mid ++ ("```".data ++ post)) pre [] hjsonpre
  have htail : pySplit ("```json".data) (mid ++ ("```".data ++ post)) ≠ [] :=
    pySplitAux_ne_nil ("```json".data) (mid ++ ("```".data ++ post)) []
  have hmidjson : ∀ i, i < mid.length → ¬ ("```json".data).isPrefixOf
      ((mid ++ ("```".data ++ post)).drop i) = true :=
    fun i hi hj => hmid i hi (tick_isPrefixOf_of_json _ hj)
  obtain ⟨ext, hext⟩ := takeUntilSep_extends ("```json".data) ("```".data ++ post)
  have hmid_u : ∀ i, i < mid.length → ¬ ("```".data).isPrefixOf
      ((mid ++ takeUntilSep ("```json".data) ("```".data ++ post)).drop i) = true := by
    intro i hi hcontra
    have h2 := isPrefixOf_drop_of_ext ("```".data)
      (mid ++ takeUntilSep ("```json".data) ("```".data ++ post)) ext i hcontra
    rw [List.append_assoc, hext] at h2
    exact hmid i hi h2
  have hu : takeUntilSep ("```".data)
      (takeUntilSep ("```json".data) ("```".data ++ post)) = [] := by
    by_cases hj : ("```json".data).isPrefixOf ("```".data ++ post) = true
    · rw [takeUntilSep_eq_nil _ _ hj]
      rfl
    · have h2 : ¬ ("```json".data).isPrefixOf ('`' :: '`' :: post) = true := by
        intro hcc
        obtain ⟨t, ht⟩ := (isPrefixOf_eq_true_iff _ _).mp hcc
        have ht' : '`' :: '`' :: '`' :: 'j' :: 's' :: 'o' :: 'n' :: t
            = '`' :: '`' :: post := ht
        injection ht' with _ ht1
        injection ht1 with _ ht2
        rw [← ht2] at hpost
        simp at hpost
      have h3 : ¬ ("```json".data).isPrefixOf ('`' :: post) = true := by
        intro hcc
        obtain ⟨t, ht⟩ := (isPrefixOf_eq_true_iff _ _).mp hcc
        have ht' : '`' :: '`' :: '`' :: 'j' :: 's' :: 'o' :: 'n' :: t
            = '`' :: post := ht
        injection ht' with _ ht1
        rw [← ht1] at hpost
        simp at hpost
      have e1 : "```".data ++ post = '`' :: ('`' :: ('`' :: post)) := rfl
      rw [e1] at hj ⊢
      simp only [takeUntilSep]
      rw [if_neg hj, if_neg h2, if_neg h3]
      rw [takeUntilSep_eq_nil]
      exact isPrefixOf_append_self ("```".data) _
  unfold strip_code_fences
  rw [if_pos hcon]
  have hps : pySplit ("```json".data)
      (pre ++ ("```json".data ++ (mid ++ ("```".data ++ post))))
      = pre :: pySplit ("```json".data) (mid ++ ("```".data ++ post)) := by
    simpa [pySplit] using hsplit
  rw [hps, elem1_cons_of_ne _ _ htail, elem0_pySplit, elem0_pySplit]
  rw [takeUntilSep_append ("```json".data) mid ("```".data ++ post) hmidjson]
  rw [takeUntilSep_append ("```".data) mid
    (takeUntilSep ("```json".data) ("```".data ++ post)) hmid_u]
  rw [hu]
  simp

/-- The bare-fence branch of the fence stripper, taken when no ```json fence
occurs anywhere: it extracts exactly the first bare-fenced content `mid`. -/
theorem strip_code_fences_bare_case (pre mid post : List Char)
    (hnojson : containsSub ("```json".data)
        (pre ++ "```".data ++ mid ++ "```".data ++ post) = false)
    (hpre : ∀ i, i < pre.length → ¬ ("```".data).isPrefixOf
        ((pre ++ "```".data ++ mid ++ "```".data ++ post).drop i) = true)
    (hmid : ∀ i, i < mid.length → ¬ ("```".data).isPrefixOf
        ((mid ++ "```".data ++ post).drop i) = true) :
    strip_code_fences (pre ++ "```".data ++ mid ++ "```".data ++ post) = mid := by
  simp only [List.append_assoc] at hnojson hpre hmid ⊢
  have hcon : containsSub ("```".data)
      (pre ++ ("```".data ++ (mid ++ ("```".data ++ post)))) = true := by
    refine containsSub_of_drop _ _ pre.length ?_
    rw [List.drop_left pre ("```".data ++ (mid ++ ("```".data ++ post)))]
    exact isPrefixOf_append_self _ _
  have hsplit := pySplitAux_append ("```".data) (by decide)
    (mid ++ ("```".data ++ post)) pre [] hpre
  have htail : pySplit ("```".data) (mid ++ ("```".data ++ post)) ≠ [] :=
    pySplitAux_ne_nil ("```".data) (mid ++ ("```".data ++ post)) []
  have hmid_solo : ∀ i, i < mid.length → ¬ ("```".data).isPrefixOf (mid.drop i) = true := by
    intro i hi hcontra
    exact hmid i hi (isPrefixOf_drop_of_ext _ mid ("```".data ++ post) i hcontra)
  have hnj : ¬ (containsSub ("```json".data)
      (pre ++ ("```".data ++ (mid ++ ("```".data ++ post)))) = true) := by
    rw [hnojson]
    decide
  unfold strip_code_fences
  rw [if_neg hnj, if_pos hcon]
  have hps : pySplit ("```".data) (pre ++ ("```".data ++ (mid ++ ("```".data ++ post))))
      = pre :: pySplit ("```".data) (mid ++ ("```".data ++ post)) := by
    simpa [pySplit] using hsplit
  rw [hps, elem1_cons_of_ne _ _ htail, elem0_pySplit, elem0_pySplit]
  rw [takeUntilSep_append ("```".data) mid ("```".data ++ post) hmid]
  rw [takeUntilSep_eq_nil ("```".data) ("```".data ++ post)
    (isPrefixOf_append_self ("```".data) post)]
  rw [List.append_nil]
  exact takeUntilSep_eq_self ("```".data) mid hmid_solo

/-- C5: for text containing a ```json fence, `parse` extracts and parses only
the content of the first such fenced block, ignoring prose before and after
the fence; for text with a bare ``` fence and no ```json fence, the first
bare-fenced block is taken instead.  (The fenced content and the preceding
prose contain no stray fence, and the trailing prose does not begin
mid-fence.) -/
theorem c5_fenced_block_extraction (pre mid post : List Char) (platform : SocialPlatform) :
    ((∀ i, i < pre.length → ¬ ("```".data).isPrefixOf
          ((pre ++ "```json".data ++ mid ++ "```".data ++ post).drop i) = true) →
      (∀ i, i < mid.length → ¬ ("```".data).isPrefixOf
          ((mid ++ "```".data ++ post).drop i) = true) →
      post.head? ≠ some '`' →
      strip_code_fences (pre ++ "```json".data ++ mid ++ "```".data ++ post) = mid
      ∧ parse_response (pre ++ "```json".data ++ mid ++ "```".data ++ post) platform
          = parse_response mid platform)
    ∧ (containsSub ("```json".data) (pre ++ "```".data ++ mid ++ "```".data ++ post) = false →
      (∀ i, i < pre.length → ¬ ("```".data).isPrefixOf
          ((pre ++ "```".data ++ mid ++ "```".data ++ post).drop i) = true) →
      (∀ i, i < mid.length → ¬ ("```".data).isPrefixOf
          ((mid ++ "```".data ++ post).drop i) = true) →
      strip_code_fences (pre ++ "```".data ++ mid ++ "```".data ++ post) = mid
      ∧ parse_response (pre ++ "```".data ++ mid ++ "```".data ++ post) platform
          = parse_response mid platform) := by
  constructor
  · intro hpre hmid hpost
    have hstrip := strip_code_fences_json_case pre mid post hpre hmid hpost
    have hmidr := hmid
    simp only [List.append_assoc] at hmidr
    have hmid_solo : ∀ i, i < mid.length →
        ¬ ("```".data).isPrefixOf (mid.drop i) = true := fun i hi hcontra =>
      hmidr i hi (isPrefixOf_drop_of_ext ("```".data) mid ("```".data ++ post) i hcontra)
    have hself := strip_code_fences_eq_self mid hmid_solo
    exact ⟨hstrip, parse_response_congr_of_strip _ _ platform hstrip hself⟩
  · intro hnojson hpre hmid
    have hstrip := strip_code_fences_bare_case pre mid post hnojson hpre hmid
    have hmidr := hmid
    simp only [List.append_assoc] at hmidr
    have hmid_solo : ∀ i, i < mid.length →
        ¬ ("```".data).isPrefixOf (mid.drop i) = true := fun i hi hcontra =>
      hmidr i hi (isPrefixOf_drop_of_ext ("```".data) mid ("```".data ++ post) i hcontra)
    have hself := strip_code_fences_eq_self mid hmid_solo
    exact ⟨hstrip, parse_response_congr_of_strip _ _ platform hstrip hself⟩

/-- Witness for C5: a ```json fence surrounded by prose, and a bare fence
surrounded by prose, each stripped to exactly the fenced content and parsed
as if the prose were absent. -/
theorem c5_fenced_block_extraction_witness :
    (strip_code_fences ("Sure: ".data ++ "```json".data ++ "\n\x7b\"ideas\": []\x7d\n".data
        ++ "```".data ++ "\nThanks".data) = "\n\x7b\"ideas\": []\x7d\n".data
      ∧ parse_response ("Sure: ".data ++ "```json".data ++ "\n\x7b\"ideas\": []\x7d\n".data
          ++ "```".data ++ "\nThanks".data) SocialPlatform.tiktok
        = parse_response "\n\x7b\"ideas\": []\x7d\n".data SocialPlatform.tiktok)
    ∧ (strip_code_fences ("Intro ".data ++ "```".data ++ " \x7b\"ideas\": []\x7d ".data
        ++ "```".data ++ " outro".data) = " \x7b\"ideas\": []\x7d ".data
      ∧ parse_response ("Intro ".data ++ "```".data ++ " \x7b\"ideas\": []\x7d ".data
          ++ "```".data ++ " outro".data) SocialPlatform.tiktok
        = parse_response " \x7b\"ideas\": []\x7d ".data SocialPlatform.tiktok) := by
  constructor
  · exact (c5_fenced_block_extraction "Sure: ".data "\n\x7b\"ideas\": []\x7d\n".data
      "\nThanks".data SocialPlatform.tiktok).1 (by decide) (by decide) (by decide)
  · exact (c5_fenced_block_extraction "Intro ".data " \x7b\"ideas\": []\x7d ".data
      " outro".data SocialPlatform.tiktok).2 (by decide) (by decide) (by decide)
